import Mathlib

/-!
# Shallow embedding of the tracking.js EPnP camera-pose solver

This file embeds the EPnP pose solver of `src/build/tracking.js` (the
`tracking.EPnP` component, lines 340-1383), the alternative barycentric
routine of `src/src/EPnP.js`, and the caller `KeypointTracker.estimatePose`
of `src/src/tracker/human/human.js`, and proves/refutes the frozen claims
about them.

Modelling conventions:
* JavaScript `Float64Array` buffers are embedded as total functions
  (`ℕ → α`, `ℕ → Fin 3 → α`, `Matrix (Fin m) (Fin n) α`, ...) over an
  arbitrary `LinearOrderedField α`; float arithmetic is idealized as exact
  field arithmetic.  Witness theorems instantiate `α := ℚ`.
* The external dense-linear-algebra provider (`numeric.svd`, `numeric.inv`,
  `numeric.solve`) and the float primitive `Math.sqrt` are parameters of
  every definition that uses them, mirroring the source's dependency on the
  `numeric` library.  Theorems that need the provider to be correct (C5)
  take its correctness as an explicit hypothesis; theorems about control
  flow hold for every provider.
* In-place mutation is embedded as explicit state passing.  Buffers that a
  routine fully overwrites before reading are materialized locally;
  buffers whose stale contents are observable (the `X` output buffer of
  `qr_solve` inside `gaussNewton`) are threaded through the state.
-/

namespace Tracking

open Matrix

variable {α : Type} [LinearOrderedField α]

/-- 3x3 matrix over the scalar type. -/
abbrev M3 (α : Type) := Matrix (Fin 3) (Fin 3) α

/-- 12x12 matrix over the scalar type. -/
abbrev M12 (α : Type) := Matrix (Fin 12) (Fin 12) α

/-- State of one `tracking.EPnP` instance after `init` (lines 375-391):
correspondence count, the intrinsics read by `initCameraParameters`
(lines 366-373) and the `pws`/`us` buffers filled by `initPoints`
(lines 349-364).  The working buffers `alphas`, `ccs`, `pcs`, `cws` are
fully (re)computed at their use sites inside `computePose` and are
modelled as locals there. -/
structure EPnPState (α : Type) where
  n : ℕ
  fu : α
  fv : α
  uc : α
  vc : α
  pws : ℕ → Fin 3 → α
  us : ℕ → Fin 2 → α

/-- `tracking.EPnP.prototype.init` composed with `initCameraParameters` and
`initPoints` (lines 349-391).  The camera matrix is the caller's flat
row-major 3x3 array: `uc = cam 2`, `vc = cam 5`, `fu = cam 0`,
`fv = cam 4`.  `initPoints` stores the object points verbatim and maps
every image point `(x, y)` to `(x*fu + uc, y*fv + vc)`.  There is no
validation of the correspondence count. -/
def init (ops : List (α × α × α)) (ips : List (α × α)) (cam : ℕ → α) :
    EPnPState α where
  n := ops.length
  fu := cam 0
  fv := cam 4
  uc := cam 2
  vc := cam 5
  pws := fun i =>
    ![(ops.getD i (0, 0, 0)).1, (ops.getD i (0, 0, 0)).2.1,
      (ops.getD i (0, 0, 0)).2.2]
  us := fun i =>
    ![(ips.getD i (0, 0)).1 * cam 0 + cam 2,
      (ips.getD i (0, 0)).2 * cam 4 + cam 5]

/-- Centroid of the first `n` points of a point buffer: accumulate, then
divide by the count (the `cws[0]` / `pc0` / `pw0` pattern of
`chooseControlPoints` lines 596-607 and `estimateRAndT` lines 826-841). -/
def centroid (n : ℕ) (ps : ℕ → Fin 3 → α) : Fin 3 → α :=
  fun j => (∑ i ∈ Finset.range n, ps i j) / (n : α)

/-- The 3x3 Gram (unnormalized covariance) matrix of the centroid-removed
point set, `PW0tPW0 = PW0ᵗ·PW0` (`chooseControlPoints` lines 610-621,
via `mulTransposed` with `order = 1`). -/
def centeredGram (n : ℕ) (ps : ℕ → Fin 3 → α) : M3 α :=
  fun j k =>
    ∑ i ∈ Finset.range n, (ps i j - centroid n ps j) * (ps i k - centroid n ps k)

/-- `tracking.EPnP.prototype.chooseControlPoints` (lines 586-632).
`svd3` models `instance.svd` at size 3 (`numeric.svd`), returning
`(W, U, V)`; the code requests `W` into `DC` and `U` into `UCt`, then
transposes `UCt` in place (`transposeSquare`), so row `k` of the
transposed matrix is the `k`-th column of `U`.  Control point 0 is the
centroid; control point `k+1` is
`centroid + sqrt (DC k / n) * (row k of Uᵗ)`. -/
def chooseControlPoints (sqrt : α → α)
    (svd3 : M3 α → (Fin 3 → α) × M3 α × M3 α)
    (n : ℕ) (pws : ℕ → Fin 3 → α) : Fin 4 → Fin 3 → α :=
  let c0 := centroid n pws
  let G := centeredGram n pws
  let DC := (svd3 G).1
  let UCt := ((svd3 G).2.1).transpose
  fun i =>
    Fin.cases c0 (fun k j => c0 j + sqrt (DC k / (n : α)) * UCt k j) i

/-- `tracking.EPnP.prototype.computeBarycentricCoordinates` (lines 634-664).
`inv3` models `invertSquare` (`numeric.inv`).  `cc` has columns
`c_j − c_0` (`cc[3i + j−1] = cws[j][i] − cws[0][i]`); for each point the
solved weights land in slots 1..3 and slot 0 is `1 − a1 − a2 − a3`. -/
def computeBarycentricCoordinates (inv3 : M3 α → M3 α)
    (cws : Fin 4 → Fin 3 → α) (pws : ℕ → Fin 3 → α) : ℕ → Fin 4 → α :=
  let cc : M3 α := fun i j => cws j.succ i - cws 0 i
  let ccInv := inv3 cc
  fun i =>
    let a : Fin 3 → α :=
      fun j => ∑ l : Fin 3, ccInv j l * (pws i l - cws 0 l)
    ![1 - a 0 - a 1 - a 2, a 0, a 1, a 2]

/-- `tracking.ePnP.findBarycentricCoordenates` from `src/src/EPnP.js`
(lines 83-102): the alternative implementation that solves against
control point 3 (`TData[j][i] = cp[i][j] − cp[3][j]`) and returns the
weights as `[r0, r1, r2, 1 − r0 − r1 − r2]`.  `invT` models
`Matrix.invert3by3`. -/
def findBarycentricCoordenates (invT : M3 α → M3 α)
    (cps : Fin 4 → Fin 3 → α) (p : Fin 3 → α) : Fin 4 → α :=
  let T : M3 α := fun j i => cps i.castSucc j - cps 3 j
  let Tinv := invT T
  let r : Fin 3 → α := fun j => ∑ l : Fin 3, Tinv j l * (p l - cps 3 l)
  ![r 0, r 1, r 2, 1 - r 0 - r 1 - r 2]

/-- One correspondence's pair of rows of the projection constraint matrix
`M`, `tracking.EPnP.prototype.fillM` (lines 666-684), assembled for all
rows at once: row `2i` carries `a_k*fu, 0, a_k*(uc − u_i)` and row `2i+1`
carries `0, a_k*fv, a_k*(vc − v_i)` in column block `k`, where
`(u_i, v_i) = us i` is the stored observed image point
(`computePose` line 745 passes `us[2i], us[2i+1]`). -/
def buildM (st : EPnPState α) (alphas : ℕ → Fin 4 → α) : ℕ → Fin 12 → α :=
  fun r =>
    let i := r / 2
    let du := st.uc - st.us i 0
    let dv := st.vc - st.us i 1
    if r % 2 = 0 then
      ![alphas i 0 * st.fu, 0, alphas i 0 * du,
        alphas i 1 * st.fu, 0, alphas i 1 * du,
        alphas i 2 * st.fu, 0, alphas i 2 * du,
        alphas i 3 * st.fu, 0, alphas i 3 * du]
    else
      ![0, alphas i 0 * st.fv, alphas i 0 * dv,
        0, alphas i 1 * st.fv, alphas i 1 * dv,
        0, alphas i 2 * st.fv, alphas i 2 * dv,
        0, alphas i 3 * st.fv, alphas i 3 * dv]

/-- First index of each of the six control-point pairs
`(0,1),(0,2),(0,3),(1,2),(1,3),(2,3)` enumerated by the `a`/`b` walk in
`computeL6x10` (lines 1052-1065) and the explicit list in `computeRho`
(lines 1085-1090). -/
def pairA : Fin 6 → Fin 4 := ![0, 0, 0, 1, 1, 2]

/-- Second index of each of the six control-point pairs. -/
def pairB : Fin 6 → Fin 4 := ![1, 2, 3, 2, 3, 3]

/-- The flat index `12*(11−i) + 3*a + c` used by `computeL6x10` and
`computeCCS` to read component `c` of sub-vector `a` of the `i`-th
null-space basis vector (row `11−i` of the transposed `Ut`). -/
def basisRow (i : Fin 4) : Fin 12 := ⟨11 - (i : ℕ), by omega⟩

/-- Component `c` of the sub-vector slot `a` of row `r` of `Ut`. -/
def utSub (Ut : M12 α) (r : Fin 12) (a : Fin 4) (c : Fin 3) : α :=
  Ut r ⟨3 * (a : ℕ) + (c : ℕ), by have := a.isLt; have := c.isLt; omega⟩

/-- The pairwise difference vectors `dv[i][j]` of `computeL6x10`
(lines 1050-1065): basis vector `i`, control-point pair `j`. -/
def dvL (Ut : M12 α) (i : Fin 4) (j : Fin 6) : Fin 3 → α :=
  fun c => utSub Ut (basisRow i) (pairA j) c - utSub Ut (basisRow i) (pairB j) c

/-- `tracking.EPnP.prototype.computeL6x10` (lines 1039-1079): row `j` holds
the ten coefficients `[B11 B12 B22 B13 B23 B33 B14 B24 B34 B44]` built
from dot products of the `dv` vectors, cross terms doubled. -/
def computeL6x10 (Ut : M12 α) : Matrix (Fin 6) (Fin 10) α :=
  fun j =>
    let d : Fin 4 → Fin 4 → α :=
      fun a b => ∑ c : Fin 3, dvL Ut a j c * dvL Ut b j c
    ![d 0 0, 2 * d 0 1, d 1 1, 2 * d 0 2, 2 * d 1 2, d 2 2,
      2 * d 0 3, 2 * d 1 3, 2 * d 2 3, d 3 3]

/-- `tracking.EPnP.prototype.computeRho` (lines 1081-1091): squared
distances between the six pairs of reference-frame control points
(`dist2`, lines 802-806). -/
def computeRho (cws : Fin 4 → Fin 3 → α) : Fin 6 → α :=
  fun j =>
    ∑ c : Fin 3, (cws (pairA j) c - cws (pairB j) c) * (cws (pairA j) c - cws (pairB j) c)

/-- `tracking.EPnP.prototype.solveLinearSystem` (lines 513-584): form the
normal equations `AᵗA x = Aᵗb` and hand the square system to the external
provider (`numeric.solve`), modelled by `lsolve`. -/
def solveLinearSystem (lsolve : ℕ → (ℕ → ℕ → α) → (ℕ → α) → (ℕ → α))
    (m n : ℕ) (A : ℕ → ℕ → α) (b : ℕ → α) : ℕ → α :=
  let AtA : ℕ → ℕ → α := fun i j => ∑ k ∈ Finset.range m, A k i * A k j
  let Atb : ℕ → α := fun i => ∑ k ∈ Finset.range m, A k i * b k
  lsolve n AtA Atb

/-- Restriction of a `Fin`-indexed matrix to a flat `ℕ`-indexed array, 0
outside the stored range (the embeddings of the `Float64Array` scratch
matrices handed to `solveLinearSystem` and `qr_solve`; in-range reads are
the only ones the algorithms perform). -/
def toFun2 {m n : ℕ} (A : Matrix (Fin m) (Fin n) α) : ℕ → ℕ → α :=
  fun i j =>
    if h : i < m then if h2 : j < n then A ⟨i, h⟩ ⟨j, h2⟩ else 0 else 0

/-- Restriction of a `Fin`-indexed vector to a flat array, 0 outside. -/
def toFun1 {n : ℕ} (v : Fin n → α) : ℕ → α :=
  fun i => if h : i < n then v ⟨i, h⟩ else 0

/-- `tracking.EPnP.prototype.findBetasApprox1` (lines 950-975): solve the
6x4 system of columns `[0,1,3,6]` of `L_6x10` for
`(β1², β1β2, β1β3, β1β4)` and extract β, the square-root sign chosen from
the sign of `B4[0]`. -/
def findBetasApprox1 (lsolve : ℕ → (ℕ → ℕ → α) → (ℕ → α) → (ℕ → α))
    (sqrt : α → α) (L : Matrix (Fin 6) (Fin 10) α) (rho : Fin 6 → α) :
    Fin 4 → α :=
  let L64 : Matrix (Fin 6) (Fin 4) α := fun i => ![L i 0, L i 1, L i 3, L i 6]
  let B4 := solveLinearSystem lsolve 6 4 (toFun2 L64) (toFun1 rho)
  if B4 0 < 0 then
    let b0 := sqrt (-B4 0)
    ![b0, -B4 1 / b0, -B4 2 / b0, -B4 3 / b0]
  else
    let b0 := sqrt (B4 0)
    ![b0, B4 1 / b0, B4 2 / b0, B4 3 / b0]

/-- `tracking.EPnP.prototype.findBetasApprox2` (lines 979-1006): solve the
6x3 system of columns `[0,1,2]` for `(β1², β1β2, β2²)`; only β1, β2 are
populated, the sign of β1 flipped when the cross term `B3[1]` is
negative. -/
def findBetasApprox2 (lsolve : ℕ → (ℕ → ℕ → α) → (ℕ → α) → (ℕ → α))
    (sqrt : α → α) (L : Matrix (Fin 6) (Fin 10) α) (rho : Fin 6 → α) :
    Fin 4 → α :=
  let L63 : Matrix (Fin 6) (Fin 3) α := fun i => ![L i 0, L i 1, L i 2]
  let B3 := solveLinearSystem lsolve 6 3 (toFun2 L63) (toFun1 rho)
  let b0a := if B3 0 < 0 then sqrt (-B3 0) else sqrt (B3 0)
  let b1 :=
    if B3 0 < 0 then (if B3 2 < 0 then sqrt (-B3 2) else 0)
    else (if 0 < B3 2 then sqrt (B3 2) else 0)
  let b0 := if B3 1 < 0 then -b0a else b0a
  ![b0, b1, 0, 0]

/-- `tracking.EPnP.prototype.findBetasApprox3` (lines 1010-1037): solve the
6x5 system of columns `[0,1,2,3,4]`; β1, β2 as in Approx2 and
`β3 = B5[3] / β1` (after the sign flip), β4 = 0. -/
def findBetasApprox3 (lsolve : ℕ → (ℕ → ℕ → α) → (ℕ → α) → (ℕ → α))
    (sqrt : α → α) (L : Matrix (Fin 6) (Fin 10) α) (rho : Fin 6 → α) :
    Fin 4 → α :=
  let L65 : Matrix (Fin 6) (Fin 5) α := fun i => ![L i 0, L i 1, L i 2, L i 3, L i 4]
  let B5 := solveLinearSystem lsolve 6 5 (toFun2 L65) (toFun1 rho)
  let b0a := if B5 0 < 0 then sqrt (-B5 0) else sqrt (B5 0)
  let b1 :=
    if B5 0 < 0 then (if B5 2 < 0 then sqrt (-B5 2) else 0)
    else (if 0 < B5 2 then sqrt (B5 2) else 0)
  let b0 := if B5 1 < 0 then -b0a else b0a
  ![b0, b1, B5 3 / b0, 0]

/-- `tracking.EPnP.prototype.computeCCS` (lines 686-707): camera-frame
control points as the β-combination of the four null-space basis vectors
(rows `11−i` of `Ut`). -/
def computeCCS (betas : Fin 4 → α) (Ut : M12 α) : Fin 4 → Fin 3 → α :=
  fun j c => ∑ i : Fin 4, betas i * utSub Ut (basisRow i) j c

/-- `tracking.EPnP.prototype.computePCS` (lines 709-730): camera-frame
point `i` as the barycentric combination of the camera-frame control
points. -/
def computePCS (alphas : ℕ → Fin 4 → α) (ccs : Fin 4 → Fin 3 → α) :
    ℕ → Fin 3 → α :=
  fun i c => ∑ k : Fin 4, alphas i k * ccs k c

/-- The cross-covariance matrix `ABt` of the centroid-removed camera-frame
and reference-frame point sets accumulated by `estimateRAndT`
(lines 843-861): `ABt[j][l] = Σ_i (pcs_i[j] − pc0[j])·(pws_i[l] − pw0[l])`. -/
def crossCovariance (n : ℕ) (pcs pws : ℕ → Fin 3 → α) : M3 α :=
  fun j l =>
    ∑ i ∈ Finset.range n,
      (pcs i j - centroid n pcs j) * (pws i l - centroid n pws l)

/-- The explicit 3x3 cofactor-expansion determinant computed inline by
`estimateRAndT` (lines 871-873). -/
def detFormula (R : M3 α) : α :=
  R 0 0 * R 1 1 * R 2 2 + R 0 1 * R 1 2 * R 2 0 + R 0 2 * R 1 0 * R 2 1 -
    R 0 2 * R 1 1 * R 2 0 - R 0 1 * R 1 0 * R 2 2 - R 0 0 * R 1 2 * R 2 1

/-- Negation of the third row of a 3x3 matrix (lines 875-879). -/
def negRow3 (R : M3 α) : M3 α :=
  fun i j => if i = 2 then -R i j else R i j

/-- `tracking.EPnP.prototype.estimateRAndT` (lines 814-884): centroids,
cross-covariance, SVD by the external provider, `R[i][j] = U_i · V_j`
(that is `R = U·Vᵗ`), third row negated when the cofactor determinant is
negative, and `t = pc0 − R·pw0`. -/
def estimateRAndT (svd3 : M3 α → (Fin 3 → α) × M3 α × M3 α)
    (n : ℕ) (pcs pws : ℕ → Fin 3 → α) : M3 α × (Fin 3 → α) :=
  let pc0 := centroid n pcs
  let pw0 := centroid n pws
  let ABt := crossCovariance n pcs pws
  let U := (svd3 ABt).2.1
  let V := (svd3 ABt).2.2
  let R0 : M3 α := fun i j => ∑ k : Fin 3, U i k * V j k
  let R := if detFormula R0 < 0 then negRow3 R0 else R0
  (R, fun j => pc0 j - ∑ k : Fin 3, R j k * pw0 k)

/-- `tracking.EPnP.prototype.reprojectionError` (lines 921-946): average
over the correspondences of
`Math.sqrt((u − ue)² + (v − ve)²)` where `(u, v) = us i` is the stored
observed point and `ue = uc + fu·Xc·(1/Zc)`, `ve = vc + fv·Yc·(1/Zc)` is
the projection of the transformed reference point.  `sqrt` models
`Math.sqrt`. -/
def reprojectionError (sqrt : α → α) (fu fv uc vc : α) (n : ℕ)
    (pws : ℕ → Fin 3 → α) (us : ℕ → Fin 2 → α)
    (R : M3 α) (t : Fin 3 → α) : α :=
  (∑ i ∈ Finset.range n,
      let Xc := (∑ k : Fin 3, R 0 k * pws i k) + t 0
      let Yc := (∑ k : Fin 3, R 1 k * pws i k) + t 1
      let invZc := 1 / ((∑ k : Fin 3, R 2 k * pws i k) + t 2)
      let ue := uc + fu * Xc * invZc
      let ve := vc + fv * Yc * invZc
      sqrt ((us i 0 - ue) * (us i 0 - ue) + (us i 1 - ve) * (us i 1 - ve))) /
    (n : α)

/-- Rigid transform of a reference point by a candidate pose `(R, t)` --
the prediction step named by the spec. -/
def transformPoint (R : M3 α) (t : Fin 3 → α) (p : Fin 3 → α) : Fin 3 → α :=
  fun j => (∑ k : Fin 3, R j k * p k) + t j

/-- Perspective projection of a camera-frame point through the intrinsics
`(fu, fv, uc, vc)` -- the prediction step named by the spec. -/
def projectPoint (fu fv uc vc : α) (q : Fin 3 → α) : Fin 2 → α :=
  ![uc + fu * q 0 / q 2, vc + fv * q 1 / q 2]

/-- Euclidean distance of two image points, with the square root as a
parameter so that it can be instantiated with `Real.sqrt`. -/
def euclidDist (sqrt : α → α) (p q : Fin 2 → α) : α :=
  sqrt ((p 0 - q 0) ^ 2 + (p 1 - q 1) ^ 2)

/-- `tracking.EPnP.prototype.computeRAndT` (lines 908-919) with the
depth-sign correction `solveForSign` (lines 886-906) inlined: rebuild
`ccs` and `pcs` from the refined betas, negate all reconstructed points
when the first point's depth `pcs[2]` is negative (the negated `ccs`
copy is not read by any later step), align rigidly, and score by
reprojection error.  Returns `(error, R, t)`. -/
def computeRAndT (sqrt : α → α)
    (svd3 : M3 α → (Fin 3 → α) × M3 α × M3 α)
    (st : EPnPState α) (alphas : ℕ → Fin 4 → α) (Ut : M12 α)
    (betas : Fin 4 → α) : α × M3 α × (Fin 3 → α) :=
  let ccs := computeCCS betas Ut
  let pcs := computePCS alphas ccs
  let pcs2 := if pcs 0 2 < 0 then (fun i c => -pcs i c) else pcs
  let Rt := estimateRAndT svd3 st.n pcs2 st.pws
  (reprojectionError sqrt st.fu st.fv st.uc st.vc st.n st.pws st.us Rt.1 Rt.2,
    Rt.1, Rt.2)

/-- Pointwise update of a flat buffer (a single JS array store). -/
def updV (f : ℕ → α) (k : ℕ) (v : α) : ℕ → α :=
  fun i => if i = k then v else f i

/-- Working state of the triangularization phase of `qr_solve`: the matrix
being reduced in place and the two reflector buffers. -/
structure QRWork (α : Type) where
  A : ℕ → ℕ → α
  A1 : ℕ → α
  A2 : ℕ → α

/-- One column `k` of the Householder triangularization of `qr_solve`
(lines 1159-1214).  The pivot scan `eta` reads `|A[k][k]|` and then, for
`i = k+1..nr−1`, reads the element *before* advancing the row pointer, so
it covers rows `k..nr−2` (the last row is never examined) -- embedded
faithfully.  `eta = 0` sets `A1[k] = A2[k] = 0` and returns from the whole
function (modelled as `Except.error` carrying the state, with `A`, `b`,
`X` untouched); otherwise the column is scaled by `1/eta`, the reflector
formed (`sigma` from `Math.sqrt`, sign matched to the scaled pivot), and
applied to the trailing columns. -/
def colStep (sqrt : α → α) (m n k : ℕ) (s : QRWork α) :
    Except (QRWork α) (QRWork α) :=
  let eta :=
    (List.range (m - 1 - k)).foldl (fun e t => max e |s.A (k + t) k|) |s.A k k|
  if eta = 0 then
    Except.error ⟨s.A, updV s.A1 k 0, updV s.A2 k 0⟩
  else
    let invEta := 1 / eta
    let As : ℕ → ℕ → α := fun i j =>
      if j = k ∧ k ≤ i ∧ i < m then s.A i j * invEta else s.A i j
    let sum2 := ∑ i ∈ Finset.Ico k m, As i k * As i k
    let sigma0 := sqrt sum2
    let sigma := if As k k < 0 then -sigma0 else sigma0
    let Ak : ℕ → ℕ → α := fun i j =>
      if i = k ∧ j = k then As k k + sigma else As i j
    let A1k := sigma * Ak k k
    let A2k := -eta * sigma
    let tau : ℕ → α := fun j => (∑ i ∈ Finset.Ico k m, Ak i k * Ak i j) / A1k
    let Ae : ℕ → ℕ → α := fun i j =>
      if k < j ∧ j < n ∧ k ≤ i ∧ i < m then Ak i j - tau j * Ak i k else Ak i j
    Except.ok ⟨Ae, updV s.A1 k A1k, updV s.A2 k A2k⟩

/-- The `for (k = 0; k < nc; k++)` triangularization loop, with the
`return` on a zero pivot short-circuiting the remaining columns. -/
def runCols (sqrt : α → α) (m n : ℕ) :
    List ℕ → QRWork α → Except (QRWork α) (QRWork α)
  | [], s => Except.ok s
  | k :: ks, s =>
    match colStep sqrt m n k s with
    | Except.error s2 => Except.error s2
    | Except.ok s2 => runCols sqrt m n ks s2

/-- The `b <- Qt b` phase of `qr_solve` (lines 1216-1236), sequential over
the columns. -/
def applyQt (m n : ℕ) (A : ℕ → ℕ → α) (A1 : ℕ → α) (b : ℕ → α) : ℕ → α :=
  (List.range n).foldl
    (fun bAcc j =>
      let tau := (∑ i ∈ Finset.Ico j m, A i j * bAcc i) / A1 j
      fun i => if j ≤ i ∧ i < m then bAcc i - tau * A i j else bAcc i)
    b

/-- The `X = R-1 b` back-substitution phase of `qr_solve`
(lines 1238-1252), writing into the caller's `X` buffer from index
`n−1` down to 0. -/
def backSubst (n : ℕ) (A : ℕ → ℕ → α) (A2 : ℕ → α) (b X : ℕ → α) : ℕ → α :=
  let X0 := updV X (n - 1) (b (n - 1) / A2 (n - 1))
  ((List.range (n - 1)).reverse).foldl
    (fun Xa i =>
      updV Xa i ((b i - ∑ j ∈ Finset.Ico (i + 1) n, A i j * Xa j) / A2 i))
    X0

/-- Full state visible to the caller after `qr_solve` returns: the
in-place-modified matrix, the reflector buffers, the right-hand side and
the output buffer `X`.  The source signals nothing on a zero pivot: it
just returns early, leaving `b` and `X` as they were. -/
structure QRState (α : Type) where
  A : ℕ → ℕ → α
  A1 : ℕ → α
  A2 : ℕ → α
  b : ℕ → α
  X : ℕ → α

/-- `tracking.EPnP.prototype.qr_solve` (lines 1136-1253).  `X` is the
caller's output buffer; on the zero-pivot early return it is passed back
untouched, on success all of `X[0..n−1]` is overwritten. -/
def qr_solve (sqrt : α → α) (m n : ℕ) (A : ℕ → ℕ → α) (b X : ℕ → α) :
    QRState α :=
  match runCols sqrt m n (List.range n) ⟨A, fun _ => 0, fun _ => 0⟩ with
  | Except.error s => ⟨s.A, s.A1, s.A2, b, X⟩
  | Except.ok s =>
    let b2 := applyQt m n s.A s.A1 b
    ⟨s.A, s.A1, s.A2, b2, backSubst n s.A s.A2 b2 X⟩

/-- The 6x4 Jacobian `A` of `computeAAndBGaussNewton` (lines 1093-1103):
partial derivatives of the six quadratic distance constraints with
respect to the four betas, evaluated at the current betas. -/
def computeAGN (L : Matrix (Fin 6) (Fin 10) α) (betas : Fin 4 → α) :
    Matrix (Fin 6) (Fin 4) α :=
  fun i =>
    ![2 * L i 0 * betas 0 + L i 1 * betas 1 + L i 3 * betas 2 + L i 6 * betas 3,
      L i 1 * betas 0 + 2 * L i 2 * betas 1 + L i 4 * betas 2 + L i 7 * betas 3,
      L i 3 * betas 0 + L i 4 * betas 1 + 2 * L i 5 * betas 2 + L i 8 * betas 3,
      L i 6 * betas 0 + L i 7 * betas 1 + L i 8 * betas 2 + 2 * L i 9 * betas 3]

/-- The 6-vector residual `B` of `computeAAndBGaussNewton`
(lines 1104-1117): target squared distance minus the quadratic form at
the current betas. -/
def computeBGN (L : Matrix (Fin 6) (Fin 10) α) (rho : Fin 6 → α)
    (betas : Fin 4 → α) : Fin 6 → α :=
  fun i =>
    rho i -
      (L i 0 * betas 0 * betas 0 + L i 1 * betas 0 * betas 1 +
        L i 2 * betas 1 * betas 1 + L i 3 * betas 0 * betas 2 +
        L i 4 * betas 1 * betas 2 + L i 5 * betas 2 * betas 2 +
        L i 6 * betas 0 * betas 3 + L i 7 * betas 1 * betas 3 +
        L i 8 * betas 2 * betas 3 + L i 9 * betas 3 * betas 3)

/-- One iteration of the `gaussNewton` loop (lines 1126-1133): rebuild
`A` and `B` at the current betas, call `qr_solve` (which overwrites the
shared `X` buffer only on success), and add `X` to the betas
unconditionally.  The state is `(betas, X buffer)`. -/
def gnStep (sqrt : α → α) (L : Matrix (Fin 6) (Fin 10) α) (rho : Fin 6 → α)
    (s : (Fin 4 → α) × (ℕ → α)) : (Fin 4 → α) × (ℕ → α) :=
  let q :=
    qr_solve sqrt 6 4 (toFun2 (computeAGN L s.1)) (toFun1 (computeBGN L rho s.1))
      s.2
  (fun i => s.1 i + q.X (i : ℕ), q.X)

/-- `tracking.EPnP.prototype.gaussNewton` (lines 1120-1134): exactly
`iterations_number = 5` iterations of `gnStep`, starting from the given
beta seed and a fresh all-zero `X` buffer; there is no convergence test
and no early exit. -/
def gaussNewton (sqrt : α → α) (L : Matrix (Fin 6) (Fin 10) α)
    (rho : Fin 6 → α) (betas : Fin 4 → α) : Fin 4 → α :=
  ((List.range 5).foldl (fun s _ => gnStep sqrt L rho s) (betas, fun _ => 0)).1

/-- The three candidate hypotheses produced inside
`tracking.EPnP.prototype.computePose` (lines 732-778): the shared
pipeline (control points, barycentric weights, `M`, `MtM = MᵗM`, the
12x12 SVD, `L_6x10`, `Rho`) followed, for each variant `K`, by
`findBetasApprox(K+1)`, `gaussNewton` and `computeRAndT`.  Index `K = 0`
is the code's hypothesis 1 (Approx1), `K = 1` Approx2, `K = 2` Approx3.
Each entry is `(reprojection error, R, t)`. -/
def epnpHypotheses (sqrt : α → α)
    (svd3 : M3 α → (Fin 3 → α) × M3 α × M3 α)
    (svd12 : M12 α → (Fin 12 → α) × M12 α)
    (inv3 : M3 α → M3 α)
    (lsolve : ℕ → (ℕ → ℕ → α) → (ℕ → α) → (ℕ → α))
    (st : EPnPState α) : Fin 3 → α × M3 α × (Fin 3 → α) :=
  let cws := chooseControlPoints sqrt svd3 st.n st.pws
  let alphas := computeBarycentricCoordinates inv3 cws st.pws
  let M := buildM st alphas
  let MtM : M12 α := fun j k => ∑ r ∈ Finset.range (2 * st.n), M r j * M r k
  let Ut := ((svd12 MtM).2).transpose
  let L := computeL6x10 Ut
  let rho := computeRho cws
  fun K =>
    let seed :=
      match K with
      | 0 => findBetasApprox1 lsolve sqrt L rho
      | 1 => findBetasApprox2 lsolve sqrt L rho
      | 2 => findBetasApprox3 lsolve sqrt L rho
    computeRAndT sqrt svd3 st alphas Ut (gaussNewton sqrt L rho seed)

/-- The hypothesis-selection step of `computePose` (lines 780-786):
`N = 1`; `if (repErrors[2] < repErrors[1]) N = 2`;
`if (repErrors[3] < repErrors[N]) N = 3` -- shifted to indices 0..2. -/
def chooseN (e : Fin 3 → α) : Fin 3 :=
  let N1 : Fin 3 := if e 1 < e 0 then 1 else 0
  if e 2 < e N1 then 2 else N1

/-- `tracking.EPnP.prototype.computePose` (lines 732-789): run all three
hypotheses, select by `chooseN`, and copy the winner's `R` and `t` into
the caller's output buffers (`copyRAndT`). -/
def computePose (sqrt : α → α)
    (svd3 : M3 α → (Fin 3 → α) × M3 α × M3 α)
    (svd12 : M12 α → (Fin 12 → α) × M12 α)
    (inv3 : M3 α → M3 α)
    (lsolve : ℕ → (ℕ → ℕ → α) → (ℕ → α) → (ℕ → α))
    (st : EPnPState α) : M3 α × (Fin 3 → α) :=
  let h := epnpHypotheses sqrt svd3 svd12 inv3 lsolve st
  let N := chooseN fun K => (h K).1
  ((h N).2.1, (h N).2.2)

/-- Caller-visible outcome of `tracking.EPnP.solve` (lines 1361-1381):
the two local buffers the function filled through `computePose`'s output
parameters, and `ret`, the function's JavaScript return value.  The
source function ends with two `console.log` calls and no `return`
statement, so `ret` is `undefined` -- modelled as `Option.none` of the
result triple the specification describes. -/
structure SolveOutcome (α : Type) where
  Rbuf : M3 α
  tbuf : Fin 3 → α
  ret : Option (M3 α × (Fin 3 → α) × α)

/-- `tracking.EPnP.solve` (lines 1361-1381): allocate `R` and `t`, `init`
a fresh instance, run `computePose` into the buffers, log them, and fall
off the end.  No value is returned to the caller and the reprojection
errors never leave `computePose`. -/
def solveEPnP (sqrt : α → α)
    (svd3 : M3 α → (Fin 3 → α) × M3 α × M3 α)
    (svd12 : M12 α → (Fin 12 → α) × M12 α)
    (inv3 : M3 α → M3 α)
    (lsolve : ℕ → (ℕ → ℕ → α) → (ℕ → α) → (ℕ → α))
    (ops : List (α × α × α)) (ips : List (α × α)) (cam : ℕ → α) :
    SolveOutcome α :=
  let st := init ops ips cam
  let Rt := computePose sqrt svd3 svd12 inv3 lsolve st
  ⟨Rt.1, Rt.2, none⟩

/-- `tracking.KeypointTracker.prototype.estimatePose` from
`src/src/tracker/human/human.js` (lines 309-311):
`return tracking.EPnP.solve(...)` -- it forwards `solve`'s return value
(which is `undefined`) to its own caller. -/
def estimatePoseKT (sqrt : α → α)
    (svd3 : M3 α → (Fin 3 → α) × M3 α × M3 α)
    (svd12 : M12 α → (Fin 12 → α) × M12 α)
    (inv3 : M3 α → M3 α)
    (lsolve : ℕ → (ℕ → ℕ → α) → (ℕ → α) → (ℕ → α))
    (ops : List (α × α × α)) (ips : List (α × α)) (cam : ℕ → α) :
    Option (M3 α × (Fin 3 → α) × α) :=
  (solveEPnP sqrt svd3 svd12 inv3 lsolve ops ips cam).ret

/-! ## Concrete rational instantiations used by witnesses and
counterexamples -/

/-- Placeholder model of `Math.sqrt` for control-flow evaluations (the
paths exercised below never depend on its values). -/
def demoSqrtQ : ℚ → ℚ := fun q => q

/-- Constant external 3x3 SVD provider returning identity factors. -/
def demoSvd3Q : M3 ℚ → (Fin 3 → ℚ) × M3 ℚ × M3 ℚ := fun _ => (fun _ => 0, 1, 1)

/-- Constant external 12x12 SVD provider. -/
def demoSvd12Q : M12 ℚ → (Fin 12 → ℚ) × M12 ℚ := fun _ => (fun _ => 0, 1)

/-- Constant external 3x3 inversion provider. -/
def demoInv3Q : M3 ℚ → M3 ℚ := fun _ => 1

/-- Constant external square-system solver provider. -/
def demoLsolveQ : ℕ → (ℕ → ℕ → ℚ) → (ℕ → ℚ) → ℕ → ℚ := fun _ _ _ _ => 0

/-- Four unit-cube corners: a valid (n = 4) object-point list. -/
def cubeOps : List (ℚ × ℚ × ℚ) := [(0, 0, 0), (1, 0, 0), (0, 1, 0), (0, 0, 1)]

/-- Image points for the four-corner scenario. -/
def cubeIps : List (ℚ × ℚ) := [(0, 0), (1, 0), (0, 1), (0, 0)]

/-- The flat row-major intrinsics `[[800,0,320],[0,800,240],[0,0,1]]`. -/
def cubeCam : ℕ → ℚ := fun i => [800, 0, 320, 0, 800, 240, 0, 0, 1].getD i 0

/-- A three-correspondence (n = 3 < 4) object-point list. -/
def ops3 : List (ℚ × ℚ × ℚ) := [(0, 0, 0), (1, 0, 0), (0, 1, 0)]

/-- Image points for the three-correspondence input. -/
def ips3 : List (ℚ × ℚ) := [(0, 0), (1, 0), (0, 1)]

/-- A 6x4 system whose first pivot column is identically zero. -/
def qrA0 : ℕ → ℕ → ℚ := fun _ _ => 0

/-- Concrete right-hand side for the zero-pivot run. -/
def qrB0 : ℕ → ℚ := fun i => (i : ℚ)

/-- Concrete prior contents of the caller's `X` output buffer. -/
def qrX0 : ℕ → ℚ := fun _ => 1

/-- Concrete beta state entering a Gauss-Newton step. -/
def gnBetas0 : Fin 4 → ℚ := ![2, 3, 4, 5]

/-- Concrete rho vector entering a Gauss-Newton step. -/
def gnRho0 : Fin 6 → ℚ := fun _ => 7

/-! ## Helper lemmas -/

/-- A fold of `fun s _ => f s` over `List.range n` is `n`-fold iteration. -/
lemma foldl_const_iterate {β : Type} (f : β → β) (x : β) (n : ℕ) :
    (List.range n).foldl (fun s _ => f s) x = f^[n] x := by
  induction n with
  | zero => simp
  | succ n ih =>
    rw [List.range_succ, List.foldl_append, ih, List.foldl_cons, List.foldl_nil,
      Function.iterate_succ_apply']

/-! ## C7: barycentric weights sum to one -/

/-- C7: for every correspondence, the four barycentric weights computed by
`computeBarycentricCoordinates` sum exactly to 1, with weight 0 defined as
`1 − a1 − a2 − a3`; the alternative `findBarycentricCoordenates` of
`src/src/EPnP.js` also produces weights summing exactly to 1 (there the
complement weight is the fourth). -/
theorem c7_barycentric_weights_sum (inv3 invT : M3 α → M3 α)
    (cws cps : Fin 4 → Fin 3 → α) (pws : ℕ → Fin 3 → α) (p : Fin 3 → α)
    (i : ℕ) :
    (∑ j : Fin 4, computeBarycentricCoordinates inv3 cws pws i j) = 1 ∧
      computeBarycentricCoordinates inv3 cws pws i 0 =
        1 - computeBarycentricCoordinates inv3 cws pws i 1 -
          computeBarycentricCoordinates inv3 cws pws i 2 -
          computeBarycentricCoordinates inv3 cws pws i 3 ∧
      (∑ j : Fin 4, findBarycentricCoordenates invT cps p j) = 1 := by
  refine ⟨?_, ?_, ?_⟩
  all_goals
    simp [computeBarycentricCoordinates, findBarycentricCoordenates,
      Fin.sum_univ_four]
  all_goals ring

/-! ## C8: control point selection -/

/-- C8: control point 0 is the centroid of the object points, and control
point `k+1` is `centroid + sqrt(eigenvalue_k / n) * eigenvector_k`, where
`(eigenvalue_k, eigenvector_k)` is the `k`-th singular pair the external
SVD provider returns for the centered points' Gram (covariance) matrix
(row `k` of the transposed `U`).  The result is a pure function of the
provider and the ordered point list, hence deterministic given the point
order. -/
theorem c8_control_point_selection (sqrt : α → α)
    (svd3 : M3 α → (Fin 3 → α) × M3 α × M3 α) (n : ℕ)
    (pws : ℕ → Fin 3 → α) :
    chooseControlPoints sqrt svd3 n pws 0 = centroid n pws ∧
      ∀ k : Fin 3,
        chooseControlPoints sqrt svd3 n pws k.succ = fun j =>
          centroid n pws j +
            sqrt ((svd3 (centeredGram n pws)).1 k / (n : α)) *
              ((svd3 (centeredGram n pws)).2.1).transpose k j := by
  constructor
  · simp [chooseControlPoints]
  · intro k
    simp [chooseControlPoints]

/-! ## C9: the Gauss-Newton refiner -/

/-- C9: `gaussNewton` performs exactly 5 iterations of `gnStep` from the
given seed (and a fresh zero `X` buffer) with no convergence test or
early exit, and each `gnStep` builds the 6x4 Jacobian `computeAGN` and
6x1 residual `computeBGN` at the current betas, solves via `qr_solve`,
and adds the resulting update to the betas. -/
theorem c9_gauss_newton_five_iterations (sqrt : α → α)
    (L : Matrix (Fin 6) (Fin 10) α) (rho : Fin 6 → α) (betas : Fin 4 → α) :
    gaussNewton sqrt L rho betas =
        ((gnStep sqrt L rho)^[5] (betas, fun _ => 0)).1 ∧
      ∀ s : (Fin 4 → α) × (ℕ → α),
        gnStep sqrt L rho s =
          (fun i =>
              s.1 i +
                (qr_solve sqrt 6 4 (toFun2 (computeAGN L s.1))
                      (toFun1 (computeBGN L rho s.1)) s.2).X (i : ℕ),
            (qr_solve sqrt 6 4 (toFun2 (computeAGN L s.1))
                (toFun1 (computeBGN L rho s.1)) s.2).X) := by
  refine ⟨?_, fun s => rfl⟩
  unfold gaussNewton
  rw [foldl_const_iterate]

/-! ## C5: rigid alignment (Kabsch step) -/

/-- The inline cofactor expansion of `estimateRAndT` computes the
determinant. -/
lemma detFormula_eq_det (M : M3 α) : detFormula M = M.det := by
  rw [Matrix.det_fin_three]
  unfold detFormula
  ring

/-- Negating the third row preserves the Gram matrix `MᵗM`. -/
lemma negRow3_transpose_mul (M : M3 α) :
    (negRow3 M)ᵀ * negRow3 M = Mᵀ * M := by
  ext i j
  simp only [Matrix.mul_apply, Matrix.transpose_apply, negRow3]
  refine Finset.sum_congr rfl fun k _ => ?_
  split_ifs <;> ring

/-- Negating the third row negates the determinant. -/
lemma negRow3_det (M : M3 α) : (negRow3 M).det = -M.det := by
  have h0 : ∀ j, negRow3 M 0 j = M 0 j := fun j => if_neg (by decide)
  have h1 : ∀ j, negRow3 M 1 j = M 1 j := fun j => if_neg (by decide)
  have h2 : ∀ j, negRow3 M 2 j = -M 2 j := fun j => if_pos rfl
  rw [Matrix.det_fin_three, Matrix.det_fin_three, h0, h0, h0, h1, h1, h1, h2,
    h2, h2]
  ring

/-- `U·Vᵗ` is orthogonal whenever `U` and `V` are. -/
lemma mulVt_orth {U V : M3 α} (hU : Uᵀ * U = 1) (hV : Vᵀ * V = 1) :
    (U * Vᵀ)ᵀ * (U * Vᵀ) = 1 := by
  have h1 : (U * Vᵀ)ᵀ = V * Uᵀ := by
    rw [Matrix.transpose_mul, Matrix.transpose_transpose]
  rw [h1, Matrix.mul_assoc, ← Matrix.mul_assoc Uᵀ U, hU, Matrix.one_mul,
    Matrix.mul_eq_one_comm.mp hV]

/-- An orthogonal 3x3 matrix has determinant `±1`. -/
lemma det_of_orth {M : M3 α} (h : Mᵀ * M = 1) : M.det = 1 ∨ M.det = -1 := by
  have h2 : M.det * M.det = 1 := by
    have h3 := congrArg Matrix.det h
    rwa [Matrix.det_mul, Matrix.det_transpose, Matrix.det_one] at h3
  exact mul_self_eq_one_iff.mp h2

/-- The det-correction branch yields a proper rotation from orthogonal
`U`, `V`. -/
lemma kabsch_core {U V : M3 α} (hU : Uᵀ * U = 1) (hV : Vᵀ * V = 1) :
    (if (U * Vᵀ).det < 0 then negRow3 (U * Vᵀ) else U * Vᵀ)ᵀ *
          (if (U * Vᵀ).det < 0 then negRow3 (U * Vᵀ) else U * Vᵀ) = 1 ∧
      (if (U * Vᵀ).det < 0 then negRow3 (U * Vᵀ) else U * Vᵀ).det = 1 := by
  have horth := mulVt_orth hU hV
  have hpm := det_of_orth horth
  split_ifs with h
  · refine ⟨by rw [negRow3_transpose_mul]; exact horth, ?_⟩
    rw [negRow3_det]
    rcases hpm with h1 | h1
    · rw [h1] at h
      exact absurd h (by norm_num)
    · rw [h1]
      norm_num
  · refine ⟨horth, ?_⟩
    rcases hpm with h1 | h1
    · exact h1
    · rw [h1] at h
      exact absurd (by norm_num : (-1 : α) < 0) h

/-- C5: `estimateRAndT` computes `R` as `U·Vᵗ` from the external SVD of
the cross-covariance of the centroid-removed camera-frame and
reference-frame point sets, negating the third row when the determinant
is negative, and `t = cameraCentroid − R·referenceCentroid`; assuming the
SVD provider returns orthogonal factors, the returned `R` satisfies
`Rᵗ·R = 1` and `det R = 1` exactly. -/
theorem c5_rigid_alignment (svd3 : M3 α → (Fin 3 → α) × M3 α × M3 α)
    (n : ℕ) (pcs pws : ℕ → Fin 3 → α) (U V : M3 α)
    (hUdef : (svd3 (crossCovariance n pcs pws)).2.1 = U)
    (hVdef : (svd3 (crossCovariance n pcs pws)).2.2 = V)
    (hU : Uᵀ * U = 1) (hV : Vᵀ * V = 1) :
    (estimateRAndT svd3 n pcs pws).1 =
        (if (U * Vᵀ).det < 0 then negRow3 (U * Vᵀ) else U * Vᵀ) ∧
      (estimateRAndT svd3 n pcs pws).2 = (fun j =>
        centroid n pcs j -
          ∑ k : Fin 3, (estimateRAndT svd3 n pcs pws).1 j k * centroid n pws k) ∧
      ((estimateRAndT svd3 n pcs pws).1)ᵀ * (estimateRAndT svd3 n pcs pws).1 =
        1 ∧
      ((estimateRAndT svd3 n pcs pws).1).det = 1 := by
  have hR0 :
      (fun i j =>
          ∑ k : Fin 3,
            (svd3 (crossCovariance n pcs pws)).2.1 i k *
              (svd3 (crossCovariance n pcs pws)).2.2 j k :
        M3 α) = U * Vᵀ := by
    rw [hUdef, hVdef]
    ext i j
    simp [Matrix.mul_apply, Matrix.transpose_apply]
  have hR : (estimateRAndT svd3 n pcs pws).1 =
      (if (U * Vᵀ).det < 0 then negRow3 (U * Vᵀ) else U * Vᵀ) := by
    simp only [estimateRAndT, hR0, detFormula_eq_det]
  refine ⟨hR, rfl, ?_, ?_⟩
  · rw [hR]
    exact (kabsch_core hU hV).1
  · rw [hR]
    exact (kabsch_core hU hV).2

/-! ## C6: reprojection error is the average Euclidean pixel distance -/

/-- C6: with `Math.sqrt` modelled by `Real.sqrt`, the reprojection error
of a candidate pose equals the average, over all correspondences, of the
Euclidean distance between the stored observed image point and the image
position predicted by rigidly transforming the reference point by
`(R, t)` and projecting it through the intrinsics `(fu, fv, uc, vc)`. -/
theorem c6_reprojection_error_euclidean (fu fv uc vc : ℝ) (n : ℕ)
    (pws : ℕ → Fin 3 → ℝ) (us : ℕ → Fin 2 → ℝ) (R : M3 ℝ) (t : Fin 3 → ℝ) :
    reprojectionError Real.sqrt fu fv uc vc n pws us R t =
      (∑ i ∈ Finset.range n,
          euclidDist Real.sqrt (us i)
            (projectPoint fu fv uc vc (transformPoint R t (pws i)))) /
        (n : ℝ) := by
  simp only [reprojectionError, euclidDist, projectPoint, transformPoint]
  congr 1
  refine Finset.sum_congr rfl fun i _ => ?_
  congr 1
  simp only [Matrix.cons_val_zero, Matrix.cons_val_one, Matrix.head_cons]
  ring

/-! ## C1: hypothesis selection -/

/-- The selected hypothesis has error at most each candidate's error. -/
lemma chooseN_le_all (e : Fin 3 → α) :
    e (chooseN e) ≤ e 0 ∧ e (chooseN e) ≤ e 1 ∧ e (chooseN e) ≤ e 2 := by
  unfold chooseN
  rcases lt_or_le (e 1) (e 0) with h1 | h1
  · simp only [if_pos h1]
    rcases lt_or_le (e 2) (e 1) with h2 | h2
    · simp only [if_pos h2]
      exact ⟨by linarith, le_of_lt h2, le_refl _⟩
    · simp only [if_neg (not_lt.mpr h2)]
      exact ⟨le_of_lt h1, le_refl _, h2⟩
  · simp only [if_neg (not_lt.mpr h1)]
    rcases lt_or_le (e 2) (e 0) with h2 | h2
    · simp only [if_pos h2]
      exact ⟨le_of_lt h2, by linarith, le_refl _⟩
    · simp only [if_neg (not_lt.mpr h2)]
      exact ⟨le_refl _, h1, h2⟩

/-- On an error tie the code keeps the earlier variant: for each `K`,
either the selected index is at most `K` or its error is strictly
smaller. -/
lemma chooseN_tie_all (e : Fin 3 → α) :
    (chooseN e ≤ 0 ∨ e (chooseN e) < e 0) ∧
      (chooseN e ≤ 1 ∨ e (chooseN e) < e 1) ∧
      (chooseN e ≤ 2 ∨ e (chooseN e) < e 2) := by
  unfold chooseN
  rcases lt_or_le (e 1) (e 0) with h1 | h1
  · simp only [if_pos h1]
    rcases lt_or_le (e 2) (e 1) with h2 | h2
    · simp only [if_pos h2]
      exact ⟨Or.inr (by linarith), Or.inr h2, Or.inl (by decide)⟩
    · simp only [if_neg (not_lt.mpr h2)]
      exact ⟨Or.inr h1, Or.inl (by decide), Or.inl (by decide)⟩
  · simp only [if_neg (not_lt.mpr h1)]
    rcases lt_or_le (e 2) (e 0) with h2 | h2
    · simp only [if_pos h2]
      exact ⟨Or.inr h2, Or.inr (by linarith), Or.inl (by decide)⟩
    · simp only [if_neg (not_lt.mpr h2)]
      exact ⟨Or.inl (by decide), Or.inl (by decide), Or.inl (by decide)⟩

/-- `chooseN_le_all` at an arbitrary index. -/
lemma chooseN_le (e : Fin 3 → α) (K : Fin 3) : e (chooseN e) ≤ e K := by
  fin_cases K
  · exact (chooseN_le_all e).1
  · exact (chooseN_le_all e).2.1
  · exact (chooseN_le_all e).2.2

/-- `chooseN_tie_all` at an arbitrary index. -/
lemma chooseN_tie (e : Fin 3 → α) (K : Fin 3) :
    chooseN e ≤ K ∨ e (chooseN e) < e K := by
  fin_cases K
  · exact (chooseN_tie_all e).1
  · exact (chooseN_tie_all e).2.1
  · exact (chooseN_tie_all e).2.2

/-- C1: `computePose` scores all three beta-estimation variants
(`epnpHypotheses` runs Approx1, Approx2, Approx3 through `gaussNewton`
and `computeRAndT`) and returns the pose of the variant picked by
`chooseN`; the picked variant's reprojection error is `≤` each of the
other two, and on ties the earlier variant in the order Approx1, Approx2,
Approx3 is kept (for every `K`, the chosen index is `≤ K` unless its
error is strictly smaller). -/
theorem c1_hypothesis_selection (sqrt : α → α)
    (svd3 : M3 α → (Fin 3 → α) × M3 α × M3 α)
    (svd12 : M12 α → (Fin 12 → α) × M12 α)
    (inv3 : M3 α → M3 α)
    (lsolve : ℕ → (ℕ → ℕ → α) → (ℕ → α) → (ℕ → α))
    (st : EPnPState α) :
    computePose sqrt svd3 svd12 inv3 lsolve st =
        ((epnpHypotheses sqrt svd3 svd12 inv3 lsolve st
              (chooseN fun K =>
                (epnpHypotheses sqrt svd3 svd12 inv3 lsolve st K).1)).2.1,
          (epnpHypotheses sqrt svd3 svd12 inv3 lsolve st
              (chooseN fun K =>
                (epnpHypotheses sqrt svd3 svd12 inv3 lsolve st K).1)).2.2) ∧
      (∀ K : Fin 3,
        (epnpHypotheses sqrt svd3 svd12 inv3 lsolve st
              (chooseN fun K0 =>
                (epnpHypotheses sqrt svd3 svd12 inv3 lsolve st K0).1)).1 ≤
          (epnpHypotheses sqrt svd3 svd12 inv3 lsolve st K).1) ∧
      ∀ K : Fin 3,
        chooseN
            (fun K0 => (epnpHypotheses sqrt svd3 svd12 inv3 lsolve st K0).1) ≤
            K ∨
          (epnpHypotheses sqrt svd3 svd12 inv3 lsolve st
                (chooseN fun K0 =>
                  (epnpHypotheses sqrt svd3 svd12 inv3 lsolve st K0).1)).1 <
            (epnpHypotheses sqrt svd3 svd12 inv3 lsolve st K).1 := by
  refine ⟨rfl, fun K => ?_, fun K => ?_⟩
  · exact
      chooseN_le
        (fun K0 => (epnpHypotheses sqrt svd3 svd12 inv3 lsolve st K0).1) K
  · exact
      chooseN_tie
        (fun K0 => (epnpHypotheses sqrt svd3 svd12 inv3 lsolve st K0).1) K

/-! ## C3: zero pivot in the least-squares solver -/

/-- A `max` fold over absolute values of zeros stays zero. -/
lemma foldl_max_zero (g : ℕ → α) (l : List ℕ) (h : ∀ t ∈ l, g t = 0) :
    l.foldl (fun e t => max e |g t|) 0 = 0 := by
  induction l with
  | nil => rfl
  | cons a as ih =>
    rw [List.foldl_cons, h a (List.mem_cons_self a as), abs_zero, max_self]
    exact ih fun t ht => h t (List.mem_cons_of_mem a ht)

/-- When the first pivot column is identically zero, `qr_solve` takes the
`eta === 0` early return on column 0: it stores `A1[0] = A2[0] = 0` and
hands back `A`, `b` and the caller's `X` buffer untouched, with no error
signal of any kind. -/
lemma qr_solve_zero_first_col (sqrt : α → α) (m n : ℕ) (A : ℕ → ℕ → α)
    (b X : ℕ → α) (hm : 0 < m) (hn : 0 < n)
    (hA : ∀ i, i < m → A i 0 = 0) :
    qr_solve sqrt m n A b X =
      ⟨A, updV (fun _ => 0) 0 0, updV (fun _ => 0) 0 0, b, X⟩ := by
  have hcol :
      colStep sqrt m n 0 ⟨A, fun _ => 0, fun _ => 0⟩ =
        Except.error ⟨A, updV (fun _ => 0) 0 0, updV (fun _ => 0) 0 0⟩ := by
    have heta :
        (List.range (m - 1 - 0)).foldl (fun e t => max e |A (0 + t) 0|)
            |A 0 0| = 0 := by
      have h00 : |A 0 0| = (0 : α) := by rw [hA 0 hm, abs_zero]
      rw [h00]
      exact
        foldl_max_zero (fun t => A (0 + t) 0) _ fun t ht => by
          have ht2 : t < m - 1 - 0 := List.mem_range.mp ht
          exact hA (0 + t) (by omega)
    simp only [colStep]
    rw [heta]
    simp
  unfold qr_solve
  obtain ⟨n1, rfl⟩ : ∃ n1, n = n1 + 1 := ⟨n - 1, by omega⟩
  rw [List.range_succ_eq_map]
  simp only [runCols, hcol]

/-- C3 (amended): on a zero pivot column the least-squares solver does not
proceed past that column, but it signals no error at all -- it stores
`A1[k] = A2[k] = 0` and returns with the matrix, the right-hand side and
the caller's output vector `X` untouched -- and the Gauss-Newton caller
does not discard the result: it unconditionally adds the returned
(unmodified, possibly stale) `X` to the betas. -/
theorem c3_zero_pivot_no_error (sqrt : α → α) (m n : ℕ) (A : ℕ → ℕ → α)
    (b X : ℕ → α) (hm : 0 < m) (hn : 0 < n)
    (hA : ∀ i, i < m → A i 0 = 0) :
    (qr_solve sqrt m n A b X).X = X ∧
      (qr_solve sqrt m n A b X).b = b ∧
      (qr_solve sqrt m n A b X).A = A ∧
      (qr_solve sqrt m n A b X).A1 0 = 0 ∧
      (qr_solve sqrt m n A b X).A2 0 = 0 ∧
      ∀ (L : Matrix (Fin 6) (Fin 10) α) (rho : Fin 6 → α) (betas : Fin 4 → α)
        (Xb : ℕ → α),
        (∀ i, i < 6 → toFun2 (computeAGN L betas) i 0 = 0) →
          gnStep sqrt L rho (betas, Xb) =
            (fun i => betas i + Xb (i : ℕ), Xb) := by
  have hq := qr_solve_zero_first_col sqrt m n A b X hm hn hA
  refine
    ⟨by rw [hq], by rw [hq], by rw [hq], by rw [hq]; simp [updV],
      by rw [hq]; simp [updV], ?_⟩
  intro L rho betas Xb hz
  simp only [gnStep,
    qr_solve_zero_first_col sqrt 6 4 _ _ _ (by norm_num) (by norm_num) hz]

/-- Witness for C3's amended theorem at the concrete zero-column system. -/
theorem c3_zero_pivot_no_error_witness :
    (0 < 6) ∧ (0 < 4) ∧ (∀ i, i < 6 → qrA0 i 0 = (0 : ℚ)) ∧
      (qr_solve demoSqrtQ 6 4 qrA0 qrB0 qrX0).X = qrX0 ∧
      (qr_solve demoSqrtQ 6 4 qrA0 qrB0 qrX0).b = qrB0 :=
  ⟨by decide, by decide, by decide,
    (c3_zero_pivot_no_error demoSqrtQ 6 4 qrA0 qrB0 qrX0 (by decide) (by decide)
        (by decide)).1,
    (c3_zero_pivot_no_error demoSqrtQ 6 4 qrA0 qrB0 qrX0 (by decide) (by decide)
        (by decide)).2.1⟩

/-- C3 counterexample: at a concrete 6x4 system whose pivot column is
identically zero, `qr_solve` returns normally (no failure value exists in
its result), leaves the caller's output vector at its prior contents
(here all ones) and the right-hand side untouched, stores
`A1[0] = A2[0] = 0`, and the Gauss-Newton step then uses that stale
vector: the betas move from `(2,3,4,5)` to `(3,4,5,6)` instead of the
hypothesis being discarded. -/
theorem c3_counterexample :
    (qr_solve demoSqrtQ 6 4 qrA0 qrB0 qrX0).X 0 = 1 ∧
      (qr_solve demoSqrtQ 6 4 qrA0 qrB0 qrX0).X 3 = 1 ∧
      (qr_solve demoSqrtQ 6 4 qrA0 qrB0 qrX0).b 3 = 3 ∧
      (qr_solve demoSqrtQ 6 4 qrA0 qrB0 qrX0).A1 0 = 0 ∧
      (qr_solve demoSqrtQ 6 4 qrA0 qrB0 qrX0).A2 0 = 0 ∧
      (gnStep demoSqrtQ (fun _ _ => 0) gnRho0 (gnBetas0, qrX0)).1 =
        ![3, 4, 5, 6] ∧
      (gnStep demoSqrtQ (fun _ _ => 0) gnRho0 (gnBetas0, qrX0)).2 2 = 1 := by
  have hz :
      ∀ i, i < 6 →
        toFun2 (computeAGN (fun _ _ => 0) gnBetas0) i 0 = (0 : ℚ) := by
    intro i hi
    simp [toFun2, hi, computeAGN]
  have hq :=
    qr_solve_zero_first_col demoSqrtQ 6 4 qrA0 qrB0 qrX0 (by norm_num)
      (by norm_num) fun i _ => rfl
  have hq2 :=
    qr_solve_zero_first_col demoSqrtQ 6 4
      (toFun2 (computeAGN (fun _ _ => 0) gnBetas0))
      (toFun1 (computeBGN (fun _ _ => 0) gnRho0 gnBetas0)) qrX0 (by norm_num)
      (by norm_num) hz
  refine ⟨?_, ?_, ?_, ?_, ?_, ?_, ?_⟩
  · rw [hq]
    rfl
  · rw [hq]
    rfl
  · rw [hq]
    norm_num [qrB0]
  · rw [hq]
    simp [updV]
  · rw [hq]
    simp [updV]
  · simp only [gnStep, hq2]
    funext j
    fin_cases j <;> norm_num [gnBetas0, qrX0]
  · simp only [gnStep, hq2]
    rfl

/-! ## C4: no check of the correspondence count -/

/-- C4 (amended): the solver performs no validation of the correspondence
count.  Even for inputs with fewer than 4 correspondences, `init` accepts
the input and initializes the full solver state -- the stored count is the
input length and the point buffers are filled exactly as for valid
inputs -- rather than rejecting it; no `InsufficientCorrespondences`
error exists anywhere in the code. -/
theorem c4_no_insufficient_check (ops : List (α × α × α))
    (ips : List (α × α)) (cam : ℕ → α) (_hlt : ops.length < 4) :
    (init ops ips cam).n = ops.length ∧
      (∀ i, (init ops ips cam).pws i =
        ![(ops.getD i (0, 0, 0)).1, (ops.getD i (0, 0, 0)).2.1,
          (ops.getD i (0, 0, 0)).2.2]) ∧
      (∀ i, (init ops ips cam).us i =
        ![(ips.getD i (0, 0)).1 * cam 0 + cam 2,
          (ips.getD i (0, 0)).2 * cam 4 + cam 5]) :=
  ⟨rfl, fun _ => rfl, fun _ => rfl⟩

/-- Witness for C4's amended theorem at the concrete 3-point input. -/
theorem c4_no_insufficient_check_witness :
    ops3.length < 4 ∧
      ((init ops3 ips3 cubeCam).n = ops3.length ∧
        (∀ i, (init ops3 ips3 cubeCam).pws i =
          ![(ops3.getD i (0, 0, 0)).1, (ops3.getD i (0, 0, 0)).2.1,
            (ops3.getD i (0, 0, 0)).2.2]) ∧
        (∀ i, (init ops3 ips3 cubeCam).us i =
          ![(ips3.getD i (0, 0)).1 * cubeCam 0 + cubeCam 2,
            (ips3.getD i (0, 0)).2 * cubeCam 4 + cubeCam 5])) :=
  ⟨by decide, c4_no_insufficient_check ops3 ips3 cubeCam (by decide)⟩

/-- C4 counterexample: the concrete 3-correspondence input is not
rejected: `init` stores the count 3 and the transformed points, and the
pipeline proceeds into matrix work on it -- `chooseControlPoints`
computes the centroid `1/3` of the three object points' x-coordinates. -/
theorem c4_counterexample :
    (init ops3 ips3 cubeCam).n = 3 ∧
      (init ops3 ips3 cubeCam).pws 1 0 = 1 ∧
      (init ops3 ips3 cubeCam).us 1 0 = 1120 ∧
      chooseControlPoints demoSqrtQ demoSvd3Q (init ops3 ips3 cubeCam).n
        (init ops3 ips3 cubeCam).pws 0 0 = 1 / 3 := by
  refine ⟨rfl, by decide, ?_, ?_⟩
  · norm_num [init, ips3, cubeCam]
  · norm_num [chooseControlPoints, centroid, init, ops3,
      Finset.sum_range_succ]

/-! ## C2: the top-level solve returns nothing to its caller -/

/-- C2 (code bug): at the valid four-corner input, `tracking.EPnP.solve`
computes the pose into its local buffers but its return value -- which
`KeypointTracker.estimatePose` forwards with
`return tracking.EPnP.solve(...)` -- is `undefined` (`none`): neither the
rotation, nor the translation, nor the winning reprojection error is
returned to the caller. -/
theorem c2_solve_returns_undefined :
    (solveEPnP demoSqrtQ demoSvd3Q demoSvd12Q demoInv3Q demoLsolveQ cubeOps
          cubeIps cubeCam).ret = none ∧
      estimatePoseKT demoSqrtQ demoSvd3Q demoSvd12Q demoInv3Q demoLsolveQ
          cubeOps cubeIps cubeCam = none :=
  ⟨rfl, rfl⟩

/-! ## C10: observed image coordinates are used only in transformed form -/

/-- C10: `init` maps every caller-supplied image point `(x, y)` to
`(x·fu + uc, y·fv + vc)`, and both later uses of an observed coordinate
consume exactly that stored transformed value: the `(uc − u)`/`(vc − v)`
coefficients of the linear system rows built by `buildM`, and the
observed point against which `computeRAndT` (inside `epnpHypotheses`)
scores the reprojection error. -/
theorem c10_normalized_image_coordinates (sqrt : α → α)
    (svd3 : M3 α → (Fin 3 → α) × M3 α × M3 α)
    (svd12 : M12 α → (Fin 12 → α) × M12 α)
    (inv3 : M3 α → M3 α)
    (lsolve : ℕ → (ℕ → ℕ → α) → (ℕ → α) → (ℕ → α))
    (ops : List (α × α × α)) (ips : List (α × α)) (cam : ℕ → α)
    (alphas : ℕ → Fin 4 → α) (i : ℕ) (k : Fin 4) (K : Fin 3) :
    (init ops ips cam).us i =
        ![(ips.getD i (0, 0)).1 * cam 0 + cam 2,
          (ips.getD i (0, 0)).2 * cam 4 + cam 5] ∧
      buildM (init ops ips cam) alphas (2 * i)
          ⟨3 * (k : ℕ) + 2, by have := k.isLt; omega⟩ =
        alphas i k * (cam 2 - ((ips.getD i (0, 0)).1 * cam 0 + cam 2)) ∧
      buildM (init ops ips cam) alphas (2 * i + 1)
          ⟨3 * (k : ℕ) + 2, by have := k.isLt; omega⟩ =
        alphas i k * (cam 5 - ((ips.getD i (0, 0)).2 * cam 4 + cam 5)) ∧
      (epnpHypotheses sqrt svd3 svd12 inv3 lsolve (init ops ips cam) K).1 =
        reprojectionError sqrt (cam 0) (cam 4) (cam 2) (cam 5) ops.length
          (init ops ips cam).pws
          (fun i0 =>
            ![(ips.getD i0 (0, 0)).1 * cam 0 + cam 2,
              (ips.getD i0 (0, 0)).2 * cam 4 + cam 5])
          (epnpHypotheses sqrt svd3 svd12 inv3 lsolve (init ops ips cam) K).2.1
          (epnpHypotheses sqrt svd3 svd12 inv3 lsolve (init ops ips cam)
              K).2.2 := by
  have hmod : 2 * i % 2 = 0 := by omega
  have hdiv : 2 * i / 2 = i := by omega
  have hmod2 : (2 * i + 1) % 2 = 1 := by omega
  have hdiv2 : (2 * i + 1) / 2 = i := by omega
  refine ⟨rfl, ?_, ?_, rfl⟩
  · fin_cases k <;> (simp only [buildM, hmod, hdiv]; rfl)
  · fin_cases k <;> (simp only [buildM, hmod2, hdiv2]; rfl)

/-- Witness for C5's hypotheses at the identity SVD provider. -/
theorem c5_rigid_alignment_witness :
    (demoSvd3Q (crossCovariance 1 (fun _ _ => 0) (fun _ _ => (0 : ℚ)))).2.1 =
        1 ∧
      (demoSvd3Q (crossCovariance 1 (fun _ _ => 0) (fun _ _ => (0 : ℚ)))).2.2 =
        1 ∧
      ((1 : M3 ℚ))ᵀ * 1 = 1 ∧
      ((estimateRAndT demoSvd3Q 1 (fun _ _ => 0) (fun _ _ => 0)).1)ᵀ *
          (estimateRAndT demoSvd3Q 1 (fun _ _ => 0) (fun _ _ => 0)).1 = 1 ∧
      ((estimateRAndT demoSvd3Q 1 (fun _ _ => 0) (fun _ _ => 0)).1).det = 1 := by
  have h1 : ((1 : M3 ℚ))ᵀ * 1 = 1 := by
    rw [Matrix.transpose_one, Matrix.one_mul]
  have hmain :=
    c5_rigid_alignment demoSvd3Q 1 (fun _ _ => 0) (fun _ _ => 0) 1 1 rfl rfl h1
      h1
  exact ⟨rfl, rfl, h1, hmain.2.2.1, hmain.2.2.2⟩

end Tracking
